import Mathlib

set_option maxRecDepth 4096

/-!
Verification development for the template-driven API integration engine of the
cbfilter clipboard utility (src/src/main.cpp).  Wide strings (`std::wstring`)
are modelled as `List Char`; byte strings (`std::string`) as `List Nat` with
every element below 256.  Each definition is a direct translation of the C++
function of the same name; external library primitives (WinRT JSON,
`std::wregex`, `CryptStringToBinaryW`) are modelled on the input subset the
program exercises.
-/

namespace CbFilter

/-- Convert a Lean string literal to the `List Char` model of `std::wstring`. -/
def wstr (s : String) : List Char := s.data

/-! ## Basic string helpers (main.cpp lines 447-487) -/

/-- Scanning loop of `ReplaceAll`: at each position, if `fr` occurs, emit `tgt`
and continue after the occurrence (the C++ code advances `pos` past the
replacement, so replaced text is never rescanned).  `fuel` bounds recursion;
it is instantiated with more than the length of the subject string, which the
scan consumes at least one character of per step. -/
def ReplaceAllGo (fr tgt : List Char) : Nat → List Char → List Char
  | 0, s => s
  | _ + 1, [] => []
  | fuel + 1, c :: rest =>
      if fr.isPrefixOf (c :: rest) then
        tgt ++ ReplaceAllGo fr tgt fuel ((c :: rest).drop fr.length)
      else
        c :: ReplaceAllGo fr tgt fuel rest

/-- `ReplaceAll` (main.cpp line 447): replace every occurrence of `fr` by `tgt`,
left-to-right, never rescanning replaced text. -/
def ReplaceAll (s fr tgt : List Char) : List Char :=
  if fr = [] then s else ReplaceAllGo fr tgt (s.length + 1) s

/-- `JsonEscape` (main.cpp line 456): escape backslash, double quote, newline,
carriage return and tab for embedding in a JSON string literal. -/
def JsonEscape : List Char → List Char
  | [] => []
  | c :: rest =>
      (if c = '\\' then ['\\', '\\']
       else if c = '"' then ['\\', '"']
       else if c = '\n' then ['\\', 'n']
       else if c = '\r' then ['\\', 'r']
       else if c = '\t' then ['\\', 't']
       else [c]) ++ JsonEscape rest

/-- `ModelConfig` (main.cpp line 98). -/
structure ModelConfig where
  name : List Char
  serverUrl : List Char
  modelName : List Char
  apiKey : List Char
  providerId : List Char
deriving DecidableEq, Repr

/-- `ReplacePlaceholders` (main.cpp line 471): substitute the seven recognized
tokens in the fixed source order, each over the whole intermediate string,
optionally JSON-escaping every substituted value. -/
def ReplacePlaceholders (src : List Char) (m : ModelConfig)
    (systemPrompt prompt imageB64 imageDataUrl : List Char) (jsonEsc : Bool) :
    List Char :=
  let esc := fun (v : List Char) => if jsonEsc then JsonEscape v else v
  let out := src
  let out := ReplaceAll out (wstr "<<model>>") (esc m.modelName)
  let out := ReplaceAll out (wstr "<<system_prompt>>") (esc systemPrompt)
  let out := ReplaceAll out (wstr "<<prompt>>") (esc prompt)
  let out := ReplaceAll out (wstr "<<input_text>>") (esc prompt)
  let out := ReplaceAll out (wstr "<<api_key>>") (esc m.apiKey)
  let out := ReplaceAll out (wstr "<<image_url>>") (esc imageDataUrl)
  let out := ReplaceAll out (wstr "<<image>>") (esc imageB64)
  out

/-- ASCII lower-casing of a single character, the behaviour of `towlower` in
the C locale used by the program. -/
def lowerChar (c : Char) : Char :=
  if 'A' ≤ c ∧ c ≤ 'Z' then Char.ofNat (c.toNat + 32) else c

/-- Decide whether `pat` occurs as a contiguous sublist of `s` (the
`wstring::find != npos` test). -/
def containsSub (s pat : List Char) : Bool :=
  match s with
  | [] => pat.isPrefixOf ([] : List Char)
  | _ :: rest => pat.isPrefixOf s || containsSub rest pat

/-- `ContainsNoCase` (main.cpp line 484): case-insensitive substring test. -/
def ContainsNoCase (hay needle : List Char) : Bool :=
  containsSub (hay.map lowerChar) (needle.map lowerChar)

/-- First index at which `pat` occurs in `s` (`wstring::find` returning a
position), or `none` (`npos`). -/
def findSubFrom (pat : List Char) : List Char → Nat → Option Nat
  | s, i =>
      if pat.isPrefixOf s then some i
      else
        match s with
        | [] => none
        | _ :: rest => findSubFrom pat rest (i + 1)

/-- `wstring::find(pat)` from position 0. -/
def findSub (s pat : List Char) : Option Nat := findSubFrom pat s 0

/-! ## EndpointResolver: `PrepareEndpoint` (main.cpp lines 1059-1077) -/

/-- Result of `PrepareEndpoint`: the C++ function writes `host`, `path` and
`useHttps` through reference parameters and returns `!host.empty()`. -/
structure EndpointResult where
  ok : Bool
  host : List Char
  path : List Char
  useHttps : Bool
deriving DecidableEq, Repr

def httpPrefix : List Char := wstr "http://"
def httpsPrefix : List Char := wstr "https://"

/-- Scheme stripping of `PrepareEndpoint` (main.cpp lines 1068-1069):
`https://` is checked first, then `http://`; with neither prefix the caller's
incoming `useHttps` value is kept. -/
def stripScheme (host : List Char) (https0 : Bool) : List Char × Bool :=
  if httpsPrefix.isPrefixOf host then (host.drop 8, true)
  else if httpPrefix.isPrefixOf host then (host.drop 7, false)
  else (host, https0)

/-- `wstring::find(L'/')`: index of the first slash, `none` for `npos`. -/
def findSlash : List Char → Option Nat
  | [] => none
  | c :: rest => if c = '/' then some 0 else (findSlash rest).map (· + 1)

/-- Host/path split of `PrepareEndpoint` (main.cpp lines 1070-1074): the part
of the host string from its first `/` onward is prepended to the path. -/
def splitHostPath (host path : List Char) : List Char × List Char :=
  match findSlash host with
  | some i => (host.take i, host.drop i ++ path)
  | none => (host, path)

/-- Final path normalization of `PrepareEndpoint` (main.cpp line 1075). -/
def normalizeLeadingSlash (p : List Char) : List Char :=
  if p ≠ [] ∧ p.head? ≠ some '/' then '/' :: p else p

/-- `PrepareEndpoint` (main.cpp line 1059).  `https0` is the value of the
caller's `useHttps` variable on entry (the parameter is in-out; callers
initialize it with `true`). -/
def PrepareEndpoint (serverUrl tplPath : List Char) (https0 : Bool) :
    EndpointResult :=
  let path0 := if tplPath = [] then wstr "/v1/chat/completions" else tplPath
  let hp :=
    if httpPrefix.isPrefixOf path0 || httpsPrefix.isPrefixOf path0 then
      (path0, ([] : List Char))
    else (serverUrl, path0)
  let hs := stripScheme hp.1 https0
  let hp2 := splitHostPath hs.1 hp.2
  ⟨hp2.1 ≠ [], hp2.1, normalizeLeadingSlash hp2.2, hs.2⟩

/-! ## JSON value model

`main.cpp` parses responses with `winrt::Windows::Data::Json::JsonValue`.
The value tree, parser and compact stringifier are modelled here; numbers are
kept as their raw source text. -/

inductive Json where
  | str (s : List Char)
  | num (raw : List Char)
  | bool (b : Bool)
  | null
  | arr (xs : List Json)
  | obj (kvs : List (List Char × Json))

/-- Strip leading JSON whitespace. -/
def skipWs : List Char → List Char
  | [] => []
  | c :: rest =>
      if c = ' ' || c = '\t' || c = '\n' || c = '\r' then skipWs rest
      else c :: rest

/-- Value of a hexadecimal digit. -/
def hexVal (c : Char) : Option Nat :=
  if '0' ≤ c ∧ c ≤ '9' then some (c.toNat - 48)
  else if 'a' ≤ c ∧ c ≤ 'f' then some (c.toNat - 87)
  else if 'A' ≤ c ∧ c ≤ 'F' then some (c.toNat - 55)
  else none

/-- Parse the body of a JSON string literal after the opening quote, returning
the decoded content and the remaining input after the closing quote. -/
def parseStringBody : List Char → Option (List Char × List Char)
  | [] => none
  | '"' :: rest => some ([], rest)
  | '\\' :: 'u' :: h1 :: h2 :: h3 :: h4 :: rest =>
      match hexVal h1, hexVal h2, hexVal h3, hexVal h4 with
      | some a, some b, some c, some d =>
          (parseStringBody rest).map fun pr =>
            (Char.ofNat (((a * 16 + b) * 16 + c) * 16 + d) :: pr.1, pr.2)
      | _, _, _, _ => none
  | '\\' :: e :: rest =>
      let dec : Option Char :=
        if e = '"' then some '"'
        else if e = '\\' then some '\\'
        else if e = '/' then some '/'
        else if e = 'b' then some (Char.ofNat 8)
        else if e = 'f' then some (Char.ofNat 12)
        else if e = 'n' then some '\n'
        else if e = 'r' then some '\r'
        else if e = 't' then some '\t'
        else none
      match dec with
      | some c => (parseStringBody rest).map fun pr => (c :: pr.1, pr.2)
      | none => none
  | c :: rest => (parseStringBody rest).map fun pr => (c :: pr.1, pr.2)

/-- Characters that may appear in a JSON number token. -/
def isNumChar (c : Char) : Bool :=
  c.isDigit || c = '-' || c = '+' || c = '.' || c = 'e' || c = 'E'

mutual

/-- Parse one JSON value.  `fuel` bounds the recursion depth and is
instantiated with more than the input length, which strictly exceeds the
nesting depth of any parseable input. -/
def parseValue : Nat → List Char → Option (Json × List Char)
  | 0, _ => none
  | fuel + 1, s =>
      match skipWs s with
      | '{' :: rest =>
          (match skipWs rest with
           | '}' :: rest2 => some (.obj [], rest2)
           | _ => parseMembers fuel (skipWs rest) [])
      | '[' :: rest =>
          (match skipWs rest with
           | ']' :: rest2 => some (.arr [], rest2)
           | _ => parseElems fuel (skipWs rest) [])
      | '"' :: rest => (parseStringBody rest).map fun pr => (.str pr.1, pr.2)
      | 't' :: 'r' :: 'u' :: 'e' :: rest => some (.bool true, rest)
      | 'f' :: 'a' :: 'l' :: 's' :: 'e' :: rest => some (.bool false, rest)
      | 'n' :: 'u' :: 'l' :: 'l' :: rest => some (.null, rest)
      | c :: rest =>
          if c.isDigit || c = '-' then
            some (.num ((c :: rest).takeWhile isNumChar),
                  (c :: rest).dropWhile isNumChar)
          else none
      | [] => none

/-- Parse the members of a JSON object after the opening brace (non-empty
object case). -/
def parseMembers : Nat → List Char → List (List Char × Json) →
    Option (Json × List Char)
  | 0, _, _ => none
  | fuel + 1, s, acc =>
      match skipWs s with
      | '"' :: rest =>
          (match parseStringBody rest with
           | none => none
           | some (key, r1) =>
               match skipWs r1 with
               | ':' :: r2 =>
                   (match parseValue fuel (skipWs r2) with
                    | none => none
                    | some (v, r3) =>
                        match skipWs r3 with
                        | ',' :: r4 => parseMembers fuel r4 (acc ++ [(key, v)])
                        | '}' :: r4 => some (.obj (acc ++ [(key, v)]), r4)
                        | _ => none)
               | _ => none)
      | _ => none

/-- Parse the elements of a JSON array after the opening bracket (non-empty
array case). -/
def parseElems : Nat → List Char → List Json → Option (Json × List Char)
  | 0, _, _ => none
  | fuel + 1, s, acc =>
      match parseValue fuel s with
      | none => none
      | some (v, r1) =>
          match skipWs r1 with
          | ',' :: r2 => parseElems fuel r2 (acc ++ [v])
          | ']' :: r2 => some (.arr (acc ++ [v]), r2)
          | _ => none

end

/-- `JsonValue::Parse`: parse a complete JSON document; any trailing
non-whitespace or syntax error raises (modelled as `none`). -/
def jsonParse (s : List Char) : Option Json :=
  match parseValue (s.length + 1) s with
  | some (v, rest) => if skipWs rest = [] then some v else none
  | none => none

/-- Escaping used by `Stringify` on string values. -/
def stringifyEscape : List Char → List Char
  | [] => []
  | c :: rest =>
      (if c = '"' then ['\\', '"']
       else if c = '\\' then ['\\', '\\']
       else if c = '\n' then ['\\', 'n']
       else if c = '\r' then ['\\', 'r']
       else if c = '\t' then ['\\', 't']
       else [c]) ++ stringifyEscape rest

/-- Join pieces with commas. -/
def joinComma : List (List Char) → List Char
  | [] => []
  | [x] => x
  | x :: xs => x ++ ',' :: joinComma xs

/-- `IJsonValue::Stringify`: compact serialization.  `fuel` bounds the depth
and is instantiated above the depth of the value. -/
def stringifyF : Nat → Json → List Char
  | 0, _ => []
  | fuel + 1, j =>
      match j with
      | .str s => '"' :: (stringifyEscape s ++ ['"'])
      | .num raw => raw
      | .bool true => wstr "true"
      | .bool false => wstr "false"
      | .null => wstr "null"
      | .arr xs => '[' :: (joinComma (xs.map (stringifyF fuel)) ++ [']'])
      | .obj kvs =>
          '{' :: (joinComma (kvs.map fun kv =>
            '"' :: (stringifyEscape kv.1 ++ ['"', ':'] ++ stringifyF fuel kv.2))
            ++ ['}'])

/-! ## ResponseExtractor: `ExtractByPath` (main.cpp lines 1182-1219) -/

/-- Split the result path at every dot, exactly as the C++ loop does: an empty
path yields one empty segment, and consecutive or trailing dots yield empty
segments. -/
def splitDot : List Char → List (List Char)
  | [] => [[]]
  | c :: rest =>
      if c = '.' then [] :: splitDot rest
      else
        match splitDot rest with
        | seg :: segs => (c :: seg) :: segs
        | [] => [[c]]

/-- Digit-accumulating loop of `_wtoi`. -/
def wtoiDigits : List Char → Nat → Nat
  | [], acc => acc
  | c :: rest, acc =>
      if c.isDigit then wtoiDigits rest (acc * 10 + (c.toNat - 48)) else acc

/-- `_wtoi`: skip whitespace, read an optional sign and leading digits;
no digits yield 0. -/
def wtoi (s : List Char) : Int :=
  let s1 := s.dropWhile fun c =>
    c = ' ' || c = '\t' || c = '\n' || c = '\r' ||
    c = Char.ofNat 11 || c = Char.ofNat 12
  match s1 with
  | '-' :: rest => -(wtoiDigits rest 0 : Int)
  | '+' :: rest => (wtoiDigits rest 0 : Int)
  | _ => (wtoiDigits s1 0 : Int)

/-- Decompose one path segment into its key and bracketed index; a segment
without a well-formed `[...]` suffix has index -1 (`idx` stays at its
initialization). -/
def parsePart (p : List Char) : List Char × Int :=
  match findSub p ['['] with
  | some lb =>
      if p.getLast? = some ']' then
        (p.take lb, wtoi ((p.drop (lb + 1)).dropLast))
      else (p, -1)
  | none => (p, -1)

/-- `JsonObject::GetNamedValue` key lookup (throwing on a missing key is
modelled by `none`). -/
def lookupKey (kvs : List (List Char × Json)) (k : List Char) : Option Json :=
  (kvs.find? fun kv => kv.1 = k).map (·.2)

/-- The trailing `if (idx >= 0)` block of the path walker: with a pending
index it calls `GetArray` on the current value (throwing — `none` — on a
non-array) and steps to the element only when the index is in bounds,
otherwise leaving the current value unchanged. -/
def applyIdx (v : Json) (idx : Int) : Option Json :=
  if idx < 0 then some v
  else
    match v with
    | .arr xs => if idx < (xs.length : Int) then xs.get? idx.toNat else some (.arr xs)
    | _ => none

/-- Process one path segment against the current JSON value, mirroring the
loop body of `ExtractByPath`; `none` covers both the early `return L""`
branches and thrown WinRT errors. -/
def stepPart (cur : Json) (p : List Char) : Option Json :=
  let kp := parsePart p
  let key := kp.1
  let idx := kp.2
  match cur with
  | .obj kvs =>
      if key ≠ [] then
        match lookupKey kvs key with
        | some v => applyIdx v idx
        | none => none
      else none
  | .arr xs =>
      if 0 ≤ idx ∧ idx < (xs.length : Int) then xs.get? idx.toNat else none
  | _ => applyIdx cur idx

/-- Walk all path segments. -/
def walkParts : Json → List (List Char) → Option Json
  | cur, [] => some cur
  | cur, p :: rest =>
      match stepPart cur p with
      | some v => walkParts v rest
      | none => none

/-- `ExtractByPath` (main.cpp line 1182): parse the response, walk the
dot-separated (optionally indexed) path, and return the resulting string
value, the stringification of a non-string value, or the empty string on any
parse error, missing key, or early exit. -/
def ExtractByPath (json path : List Char) : List Char :=
  match jsonParse json with
  | none => []
  | some root =>
      match walkParts root (splitDot path) with
      | none => []
      | some cur =>
          match cur with
          | .str s => s
          | _ => stringifyF (json.length + 1) cur

/-! ## Heuristic text extraction: `ExtractContent` (main.cpp lines 940-955) -/

/-- Character-copying loop of `ExtractContent`: copy until an unescaped
double quote, decoding only the `\n` and `\"` escape sequences. -/
def scanContent : List Char → List Char
  | [] => []
  | '"' :: _ => []
  | '\\' :: 'n' :: rest => '\n' :: scanContent rest
  | '\\' :: '"' :: rest => '"' :: scanContent rest
  | c :: rest => c :: scanContent rest

/-- `ExtractContent` (main.cpp line 940): locate the first `"content"` key,
skip to the next double quote, and copy the following characters up to the
next unescaped quote, unescaping only `\n` and `\"`. -/
def ExtractContent (json : List Char) : List Char :=
  match findSub json (wstr "\"content\"") with
  | none => []
  | some p =>
      match findSubFrom ['"'] (json.drop (p + 9)) (p + 9) with
      | none => []
      | some q => scanContent (json.drop (q + 1))

/-- The text-output extraction sequence of `CallTemplate`
(main.cpp lines 1297-1300): structured path first (when a result path is
configured), then the `ExtractContent` heuristic whenever that produced
nothing. -/
def CallTemplateTextExtract (resultPath resp : List Char) : List Char :=
  let t := if resultPath ≠ [] then ExtractByPath resp resultPath else []
  if t = [] then ExtractContent resp else t

/-! ## Provider catalog and filter resolution (main.cpp lines 92-147, 496-538, 1330-1338) -/

/-- `IOType` (main.cpp line 92). -/
inductive IOType where
  | text
  | image
deriving DecidableEq, Repr

/-- `TemplateDefinition` (main.cpp line 122). -/
structure TemplateDefinition where
  id : List Char
  providerId : List Char
  input : IOType
  output : IOType
  endpoint : List Char
  resultPath : List Char
  headers : List (List Char × List Char)
  payload : List Char
deriving DecidableEq, Repr

/-- `ApiProvider` (main.cpp line 133). -/
structure ApiProvider where
  id : List Char
  defaultEndpoint : List Char
  templates : List TemplateDefinition
  modelsEndpoint : List Char
  modelsMethod : List Char
  modelsHeaders : List (List Char × List Char)
  modelsPayload : List Char
  modelsResultPath : List Char
deriving DecidableEq, Repr

/-- `FilterDefinition` (main.cpp line 110). -/
structure FilterDefinition where
  title : List Char
  input : IOType
  output : IOType
  modelIndex : Nat
  prompt : List Char
deriving DecidableEq, Repr

/-- `FindProviderById` (main.cpp line 510), over an explicit provider list in
place of the global `g_providers`. -/
def FindProviderById (providers : List ApiProvider) (i : List Char) :
    Option ApiProvider :=
  providers.find? fun p => p.id == i

/-- `FindTemplateByIO` (main.cpp line 522). -/
def FindTemplateByIO (p : ApiProvider) (inK outK : IOType) :
    Option TemplateDefinition :=
  p.templates.find? fun t => t.input == inK && t.output == outK

/-- `FindTemplateAny` (main.cpp line 533): search every provider in catalog
order, first match wins. -/
def FindTemplateAny (providers : List ApiProvider) (inK outK : IOType) :
    Option TemplateDefinition :=
  match providers with
  | [] => none
  | p :: rest =>
      match FindTemplateByIO p inK outK with
      | some t => some t
      | none => FindTemplateAny rest inK outK

/-- Provider resolution of `RunFilter` (main.cpp lines 1334-1335): by the
model's provider id, falling back to the first catalog provider. -/
def ResolveProvider (providers : List ApiProvider) (m : ModelConfig) :
    Option ApiProvider :=
  match FindProviderById providers m.providerId with
  | some p => some p
  | none => providers.head?

/-- The model/provider/template resolution phase of `RunFilter`
(main.cpp lines 1330-1338): clamp the model index to 0 when out of range,
resolve the provider by id with fallback to the first catalog provider, then
the template by (input, output) within that provider and finally across the
whole catalog; `none` is the `fail: no matching template` exit (or an empty
model list, which the C++ code never reaches a defined behaviour on). -/
def RunFilterResolve (providers : List ApiProvider) (models : List ModelConfig)
    (f : FilterDefinition) : Option (ModelConfig × TemplateDefinition) :=
  match models.get? (if f.modelIndex < models.length then f.modelIndex else 0) with
  | none => none
  | some m =>
      let tpl0 :=
        match ResolveProvider providers m with
        | some p => FindTemplateByIO p f.input f.output
        | none => none
      let tpl :=
        match tpl0 with
        | some t => some t
        | none => FindTemplateAny providers f.input f.output
      tpl.map fun t => (m, t)

/-! ## RequestBuilder: headers, UTF-8 body, multipart encoding
(main.cpp lines 1089-1125, 1229-1257, 1279-1287) -/

/-- UTF-8 encoding of one character (`WideCharToMultiByte(CP_UTF8, ...)`). -/
def utf8Char (c : Char) : List Nat :=
  let n := c.toNat
  if n < 128 then [n]
  else if n < 2048 then [192 + n / 64, 128 + n % 64]
  else if n < 65536 then [224 + n / 4096, 128 + (n / 64) % 64, 128 + n % 64]
  else [240 + n / 262144, 128 + (n / 4096) % 64, 128 + (n / 64) % 64,
        128 + n % 64]

/-- `ToUtf8`: encode a wide string as UTF-8 bytes. -/
def utf8 : List Char → List Nat
  | [] => []
  | c :: rest => utf8Char c ++ utf8 rest

/-- Value of one base64 alphabet character. -/
def b64Val (c : Char) : Option Nat :=
  if 'A' ≤ c ∧ c ≤ 'Z' then some (c.toNat - 65)
  else if 'a' ≤ c ∧ c ≤ 'z' then some (c.toNat - 71)
  else if '0' ≤ c ∧ c ≤ '9' then some (c.toNat + 4)
  else if c = '+' then some 62
  else if c = '/' then some 63
  else none

/-- Decode whitespace-stripped base64 input in groups of four characters. -/
def b64Groups : List Char → Option (List Nat)
  | [] => some []
  | a :: b :: '=' :: '=' :: [] =>
      match b64Val a, b64Val b with
      | some va, some vb => some [va * 4 + vb / 16]
      | _, _ => none
  | a :: b :: c :: '=' :: [] =>
      match b64Val a, b64Val b, b64Val c with
      | some va, some vb, some vc =>
          some [va * 4 + vb / 16, (vb % 16) * 16 + vc / 4]
      | _, _, _ => none
  | a :: b :: c :: d :: rest =>
      match b64Val a, b64Val b, b64Val c, b64Val d, b64Groups rest with
      | some va, some vb, some vc, some vd, some tl =>
          some ([va * 4 + vb / 16, (vb % 16) * 16 + vc / 4,
                 (vc % 4) * 64 + vd] ++ tl)
      | _, _, _, _, _ => none
  | _ => none

/-- `CryptStringToBinaryW(..., CRYPT_STRING_BASE64, ...)`: skip whitespace and
decode; failure is modelled as `none`. -/
def base64Decode (s : List Char) : Option (List Nat) :=
  b64Groups (s.filter fun c => !(c = ' ' || c = '\t' || c = '\n' || c = '\r'))

/-- `BuildHeaderString` (main.cpp line 1103): render each header value with
placeholder substitution (never JSON-escaped) into a `key: value\r\n` block. -/
def BuildHeaderString (headers : List (List Char × List Char)) (m : ModelConfig)
    (systemPrompt prompt imageB64 imageDataUrl : List Char) : List Char :=
  match headers with
  | [] => []
  | (k, v) :: rest =>
      k ++ wstr ": " ++
        ReplacePlaceholders v m systemPrompt prompt imageB64 imageDataUrl false ++
        wstr "\r\n" ++
        BuildHeaderString rest m systemPrompt prompt imageB64 imageDataUrl

/-- One `addText` part of `BuildMultipartBody`. -/
def multipartTextPart (bnd : List Nat) (nm v : List Char) : List Nat :=
  utf8 (wstr "--") ++ bnd ++ utf8 (wstr "\r\n") ++
  utf8 (wstr "Content-Disposition: form-data; name=\"") ++ utf8 nm ++
  utf8 (wstr "\"\r\n\r\n") ++ utf8 v ++ utf8 (wstr "\r\n")

/-- The image block of `BuildMultipartBody` (main.cpp lines 1230-1254):
empty base64 input or a failed decode skips the part entirely. -/
def multipartImageSection (bnd : List Nat) (imageB64 : List Char) : List Nat :=
  let img : List Nat :=
    if imageB64 = [] then [] else (base64Decode imageB64).getD []
  if img = [] then []
  else
    utf8 (wstr "--") ++ bnd ++ utf8 (wstr "\r\n") ++
    utf8 (wstr "Content-Disposition: form-data; name=\"image\"; filename=\"image.png\"\r\n") ++
    utf8 (wstr "Content-Type: image/png\r\n\r\n") ++ img ++
    utf8 (wstr "\r\n")

/-- `BuildMultipartBody` (main.cpp line 1229): a `model` part, a `prompt`
part, an `image` part of type image/png only when the base64 image data is
present and decodes to at least one byte, and the closing boundary. -/
def BuildMultipartBody (boundary model prompt imageB64 : List Char) :
    List Nat :=
  let bnd := utf8 boundary
  multipartTextPart bnd (wstr "model") model ++
  multipartTextPart bnd (wstr "prompt") prompt ++
  multipartImageSection bnd imageB64 ++
  utf8 (wstr "--") ++ bnd ++ utf8 (wstr "--\r\n")

/-- The fixed boundary token of `CallTemplate` (main.cpp line 1282). -/
def cbBoundary : List Char := wstr "----cbfilterboundary"

/-- The body/header encoding decision of `CallTemplate`
(main.cpp lines 1279-1287): a case-insensitive `multipart/form-data`
occurrence anywhere in the rendered header block selects the multipart
encoding (with the exact-case occurrences rewritten to carry the boundary
parameter); otherwise the rendered payload is used verbatim as UTF-8. -/
def EncodeRequest (headers payloadRendered modelName prompt imageB64 :
    List Char) : List Char × List Nat :=
  if ContainsNoCase headers (wstr "multipart/form-data") then
    (ReplaceAll headers (wstr "multipart/form-data")
       (wstr "multipart/form-data; boundary=" ++ cbBoundary),
     BuildMultipartBody cbBoundary modelName prompt imageB64)
  else
    (headers, utf8 payloadRendered)

/-! ## HTTP transport model and response handling
(main.cpp lines 1138-1174, 1293-1300) -/

/-- Outcome of the WinHTTP collaborator calls inside
`HttpRequestWithHeaders`: whether handle setup, send and receive succeeded,
the reported status code, and the successive body chunks (already converted
to wide text). -/
structure TransportOutcome where
  openOk : Bool
  sendOk : Bool
  receiveOk : Bool
  statusKnown : Bool
  status : Nat
  chunks : List (List Char)
deriving DecidableEq, Repr

/-- `HttpRequestWithHeaders` (main.cpp line 1138) as a function of the
transport outcome: returns the response body text and the error message slot.
A status of 400 or above sets the error but the body is still read; any
earlier failure yields an empty body. -/
def HttpRequestWithHeaders (t : TransportOutcome) :
    List Char × Option (List Char) :=
  if !t.openOk then ([], some (wstr "WinHttpOpen failed"))
  else
    let e1 : Option (List Char) :=
      if t.sendOk then none else some (wstr "WinHttpSendRequest failed")
    let ok2 := t.sendOk && t.receiveOk
    let e2 := if ok2 then e1 else some (wstr "WinHttpReceiveResponse failed")
    let e3 :=
      if ok2 && t.statusKnown && decide (400 ≤ t.status) then
        some (wstr "HTTP status" ++ wstr " 4xx/5xx")
      else e2
    ((if ok2 then t.chunks.flatten else []), e3)

/-- The response handling of `CallTemplate` for a text-output template
(main.cpp lines 1293-1300): the transport error is only logged, never acted
on; an empty response body returns the empty (failed) result before any
extraction; otherwise path extraction runs with the content heuristic as
fallback. -/
def CallTemplateTextResult (resultPath resp : List Char)
    (_err : Option (List Char)) : List Char :=
  if resp = [] then [] else CallTemplateTextExtract resultPath resp

/-! ## ModelDiscovery: `RegexMatchNoCase`, `PickModelByPatterns`
(main.cpp lines 1662-1669, 1740-1745)

`RegexMatchNoCase` delegates to `std::wregex` with `icase` and
`std::regex_search`.  The ECMAScript dialect is modelled on the pattern
subset the catalog uses: literal characters, `.`, and the `*` quantifier. -/

/-- One regex token of the modelled subset. -/
inductive RTok where
  | lit (c : Char)
  | dot
deriving DecidableEq, Repr

/-- Lex a pattern of literals, `.` and postfix `*` into (token, starred)
pairs. -/
def lexPattern : List Char → List (RTok × Bool)
  | [] => []
  | c :: '*' :: rest2 =>
      ((if c = '.' then RTok.dot else RTok.lit c), true) :: lexPattern rest2
  | c :: rest =>
      ((if c = '.' then RTok.dot else RTok.lit c), false) :: lexPattern rest

/-- Whether a token matches one character (`.` matches everything except line
terminators in ECMAScript). -/
def tokMatch : RTok → Char → Bool
  | .dot, c => !(c = '\n' || c = '\r')
  | .lit l, c => l == c

/-- Match the token list against a prefix of `s`.  `fuel` bounds recursion;
every step shrinks the pattern or the subject, so `toks.length + s.length + 1`
is always enough. -/
def matchHere : Nat → List (RTok × Bool) → List Char → Bool
  | 0, _, _ => false
  | _ + 1, [], _ => true
  | fuel + 1, (t, true) :: rest, s =>
      matchHere fuel rest s ||
        (match s with
         | c :: cs => tokMatch t c && matchHere fuel ((t, true) :: rest) cs
         | [] => false)
  | fuel + 1, (t, false) :: rest, s =>
      match s with
      | c :: cs => tokMatch t c && matchHere fuel rest cs
      | [] => false

/-- `std::regex_search`: does the pattern match starting at any position? -/
def regexSearch (toks : List (RTok × Bool)) : List Char → Bool
  | [] => matchHere (toks.length + 1) toks []
  | c :: rest =>
      matchHere (toks.length + (c :: rest).length + 1) toks (c :: rest) ||
        regexSearch toks rest

/-- `RegexMatchNoCase` (main.cpp line 1662): case-insensitive regex search. -/
def RegexMatchNoCase (text pattern : List Char) : Bool :=
  regexSearch (lexPattern (pattern.map lowerChar)) (text.map lowerChar)

/-- `PickModelByPatterns` (main.cpp line 1740): patterns tried in order, the
first model (in list order) matching the current pattern wins; with no match
at all, the first model of a non-empty list, the empty string otherwise. -/
def PickModelByPatterns (models patterns : List (List Char)) : List Char :=
  match patterns with
  | [] =>
      match models with
      | [] => []
      | m :: _ => m
  | pat :: restPats =>
      match models.find? (fun m => RegexMatchNoCase m pat) with
      | some m => m
      | none => PickModelByPatterns models restPats

/-! ## FilterExecutor single-flight guard
(main.cpp lines 2692-2697, 2787, 2830, 3011-3017, 3139-3150)

Both entry points — the filter menu (`ShowFilterMenuAndRun`) and the global
hotkey (`WndProc`, `WM_HOTKEY`) — reject an invocation while `g_progressWnd`
names a live window; the progress window is created when a run starts and is
destroyed (clearing `g_progressWnd`) only when the worker thread posts
`WM_APP_FILTER_COMPLETE`.  All of these events are serialized on the single
UI thread, so the engine is modelled as a sequential transition system. -/

/-- Which entry point an invocation came through. -/
inductive InvokeSource where
  | hotkey
  | menu
deriving DecidableEq, Repr

/-- Observable outcome of one invocation attempt. -/
inductive InvokeOutcome where
  | rejected
  | started (filterIdx : Nat)
  | noSelection
deriving DecidableEq, Repr

/-- Engine-level state: whether `g_progressWnd` names a live progress window,
and how many worker threads are running (started, completion not yet
processed). -/
structure EngineState where
  progressWndLive : Bool
  running : Nat
deriving DecidableEq, Repr

/-- Process start: no progress window, no worker. -/
def initialEngineState : EngineState := ⟨false, 0⟩

/-- One invocation attempt (either entry point runs the identical guard):
rejected outright while the progress window lives; otherwise a selected
filter starts a worker and creates the progress window. -/
def invokeStep (s : EngineState) (_src : InvokeSource)
    (selection : Option Nat) : InvokeOutcome × EngineState :=
  if s.progressWndLive then (.rejected, s)
  else
    match selection with
    | some i => (.started i, ⟨true, s.running + 1⟩)
    | none => (.noSelection, s)

/-- Worker completion (`WM_APP_FILTER_COMPLETE` then `WM_DESTROY`): the
progress window is destroyed and `g_progressWnd` cleared. -/
def completeStep (s : EngineState) : EngineState :=
  if s.running = 0 then s else ⟨false, s.running - 1⟩

/-- Serialized UI-thread events. -/
inductive FilterEvent where
  | invoke (src : InvokeSource) (selection : Option Nat)
  | complete
deriving DecidableEq, Repr

/-- Step function of the serialized engine. -/
def engineStep (s : EngineState) : FilterEvent → EngineState
  | .invoke src sel => (invokeStep s src sel).2
  | .complete => completeStep s

/-- State after a sequence of events from process start. -/
def engineRun (evs : List FilterEvent) : EngineState :=
  evs.foldl engineStep initialEngineState

/-! ## Theorems -/

/-- Single-flight bookkeeping invariant: exactly one worker runs while the
progress window lives, none otherwise. -/
def singleFlightInv (s : EngineState) : Prop :=
  s.running = if s.progressWndLive then 1 else 0

lemma singleFlightInv_step (s : EngineState) (e : FilterEvent)
    (h : singleFlightInv s) : singleFlightInv (engineStep s e) := by
  unfold singleFlightInv at *
  cases e with
  | invoke src sel =>
      by_cases hl : s.progressWndLive
      · simp [engineStep, invokeStep, hl, h]
      · cases sel with
        | some i =>
            simp [hl] at h
            simp [engineStep, invokeStep, hl, h]
        | none => simp [engineStep, invokeStep, hl, h]
  | complete =>
      by_cases hr : s.running = 0
      · simp [engineStep, completeStep, hr, h] at *
        omega
      · have hl : s.progressWndLive := by
          by_contra hc
          simp [hc] at h
          exact hr h
        simp [hl] at h
        simp [engineStep, completeStep, hr, h]

lemma singleFlightInv_foldl (evs : List FilterEvent) (s : EngineState)
    (h : singleFlightInv s) : singleFlightInv (evs.foldl engineStep s) := by
  induction evs generalizing s with
  | nil => exact h
  | cons e rest ih => exact ih _ (singleFlightInv_step s e h)

lemma singleFlightInv_run (evs : List FilterEvent) :
    singleFlightInv (engineRun evs) :=
  singleFlightInv_foldl evs initialEngineState (by
    unfold singleFlightInv initialEngineState
    simp)

/-- C5: while a prior run's worker has not signaled completion (the progress
window still exists), any new invocation — from the hotkey or the filter
menu — is rejected with the state unchanged (no second worker starts), and at
most one worker is ever running. -/
theorem single_flight_guard (evs : List FilterEvent) (src : InvokeSource)
    (sel : Option Nat) :
    (engineRun evs).running ≤ 1 ∧
    ((engineRun evs).progressWndLive = true →
      invokeStep (engineRun evs) src sel =
        (InvokeOutcome.rejected, engineRun evs)) := by
  have h := singleFlightInv_run evs
  unfold singleFlightInv at h
  constructor
  · rw [h]
    split <;> omega
  · intro hl
    simp [invokeStep, hl]

/-- Witness for `single_flight_guard`: after one started run, a hotkey
invocation is rejected outright. -/
theorem single_flight_guard_witness :
    (engineRun [.invoke .menu (some 0)]).progressWndLive = true ∧
    invokeStep (engineRun [.invoke .menu (some 0)]) .hotkey (some 1) =
      (InvokeOutcome.rejected, engineRun [.invoke .menu (some 0)]) :=
  ⟨by decide,
   (single_flight_guard [.invoke .menu (some 0)] .hotkey (some 1)).2
     (by decide)⟩

/-- C10: placeholder substitution is not injection-safe.  With a payload
template that carries no `<<api_key>>` token, a prompt containing that token
literally makes the rendered payload contain the plaintext API key, and two
renders differing only in the key differ. -/
theorem placeholder_injection_leaks_api_key :
    (findSub (wstr "\x7b\"p\":\"<<prompt>>\"\x7d") (wstr "<<api_key>>") =
        none) ∧
    (containsSub
        (ReplacePlaceholders (wstr "\x7b\"p\":\"<<prompt>>\"\x7d")
          ⟨wstr "M", wstr "srv", wstr "gpt", wstr "KEY-ONE", wstr "OpenAI"⟩
          (wstr "sys") (wstr "x<<api_key>>") [] [] true)
        (wstr "KEY-ONE") = true) ∧
    (ReplacePlaceholders (wstr "\x7b\"p\":\"<<prompt>>\"\x7d")
        ⟨wstr "M", wstr "srv", wstr "gpt", wstr "KEY-ONE", wstr "OpenAI"⟩
        (wstr "sys") (wstr "x<<api_key>>") [] [] true ≠
      ReplacePlaceholders (wstr "\x7b\"p\":\"<<prompt>>\"\x7d")
        ⟨wstr "M", wstr "srv", wstr "gpt", wstr "KEY-TWO", wstr "OpenAI"⟩
        (wstr "sys") (wstr "x<<api_key>>") [] [] true) := by
  refine ⟨by decide, by decide, by decide⟩

/-- C8: a transport failure or a 400+ status is recorded as a warning without
suppressing the received body; the response result ignores the error slot
entirely and extraction runs on any non-empty body; an empty body fails
immediately. -/
theorem transport_error_nonfatal (t : TransportOutcome)
    (ho : t.openOk = true) (hs : t.sendOk = true) (hr : t.receiveOk = true)
    (hk : t.statusKnown = true) (h4 : 400 ≤ t.status) :
    ((HttpRequestWithHeaders t).2 ≠ none ∧
      (HttpRequestWithHeaders t).1 = t.chunks.flatten) ∧
    (∀ path resp e1 e2, CallTemplateTextResult path resp e1 =
        CallTemplateTextResult path resp e2) ∧
    (∀ path e, CallTemplateTextResult path [] e = []) ∧
    (∀ path resp e, resp ≠ [] →
        CallTemplateTextResult path resp e =
          CallTemplateTextExtract path resp) := by
  refine ⟨?_, ?_, ?_, ?_⟩
  · simp [HttpRequestWithHeaders, ho, hs, hr, hk, h4]
  · intro path resp e1 e2
    rfl
  · intro path e
    simp [CallTemplateTextResult]
  · intro path resp e hne
    simp [CallTemplateTextResult, hne]

/-- Witness for `transport_error_nonfatal` at a concrete 500-status outcome
with a non-empty body. -/
theorem transport_error_nonfatal_witness :
    (HttpRequestWithHeaders ⟨true, true, true, true, 500, [wstr "BODY"]⟩).2 ≠
        none ∧
    (HttpRequestWithHeaders ⟨true, true, true, true, 500, [wstr "BODY"]⟩).1 =
      wstr "BODY" :=
  ⟨(transport_error_nonfatal ⟨true, true, true, true, 500, [wstr "BODY"]⟩
      rfl rfl rfl rfl (by norm_num)).1.1,
   by
    have h := (transport_error_nonfatal ⟨true, true, true, true, 500,
      [wstr "BODY"]⟩ rfl rfl rfl rfl (by norm_num)).1.2
    simpa using h⟩

/-- C7: when the structured path yields nothing for a text-output template,
extraction falls back to the raw `"content"` scan which unescapes only `\n`
and `\"`; on the example response with an empty or invalid path the result is
`hi "there"` with the quotes unescaped. -/
theorem content_fallback (path resp : List Char)
    (h : path = [] ∨ ExtractByPath resp path = []) :
    CallTemplateTextExtract path resp = ExtractContent resp ∧
    CallTemplateTextExtract []
        (wstr "\x7b\"message\":\x7b\"content\":\"hi \\\"there\\\"\"\x7d\x7d") =
      wstr "hi \"there\"" ∧
    CallTemplateTextExtract (wstr "bogus")
        (wstr "\x7b\"message\":\x7b\"content\":\"hi \\\"there\\\"\"\x7d\x7d") =
      wstr "hi \"there\"" ∧
    scanContent (wstr "a\\nb\\\"c\\\\d\"tail") = wstr "a\nb\"c\\\\d" := by
  refine ⟨?_, by decide, by decide, by decide⟩
  rcases h with h | h
  · simp [CallTemplateTextExtract, h]
  · by_cases hp : path = []
    · simp [CallTemplateTextExtract, hp]
    · simp [CallTemplateTextExtract, hp, h]

/-- Witness for `content_fallback` at the example response with an invalid
path. -/
theorem content_fallback_witness :
    CallTemplateTextExtract (wstr "bogus")
        (wstr "\x7b\"message\":\x7b\"content\":\"hi \\\"there\\\"\"\x7d\x7d") =
      ExtractContent
        (wstr "\x7b\"message\":\x7b\"content\":\"hi \\\"there\\\"\"\x7d\x7d") :=
  (content_fallback (wstr "bogus")
    (wstr "\x7b\"message\":\x7b\"content\":\"hi \\\"there\\\"\"\x7d\x7d")
    (Or.inr (by decide))).1

lemma resolveProvider_mem {providers : List ApiProvider} {m : ModelConfig}
    {p : ApiProvider} (h : ResolveProvider providers m = some p) :
    p ∈ providers := by
  unfold ResolveProvider at h
  cases hf : FindProviderById providers m.providerId with
  | some q =>
      rw [hf] at h
      cases h
      exact List.mem_of_find?_eq_some hf
  | none =>
      rw [hf] at h
      cases providers with
      | nil => cases h
      | cons q rest =>
          simp at h
          simp [h]

lemma findTemplateAny_none_iff (providers : List ApiProvider)
    (inK outK : IOType) :
    FindTemplateAny providers inK outK = none ↔
      ∀ p ∈ providers, FindTemplateByIO p inK outK = none := by
  induction providers with
  | nil => simp [FindTemplateAny]
  | cons p rest ih =>
      unfold FindTemplateAny
      cases h : FindTemplateByIO p inK outK with
      | some t =>
          constructor
          · intro hcon
            cases hcon
          · intro hall
            have hc := hall p (by simp)
            rw [hc] at h
            cases h
      | none =>
          constructor
          · intro hA q hq
            rcases List.mem_cons.1 hq with rfl | hq'
            · exact h
            · exact (ih.1 hA) q hq'
          · intro hall
            exact ih.2 fun q hq => hall q (List.mem_cons_of_mem _ hq)

lemma runFilterResolve_eq (providers : List ApiProvider)
    (models : List ModelConfig) (f : FilterDefinition) (m0 : ModelConfig)
    (hsel : models.get?
      (if f.modelIndex < models.length then f.modelIndex else 0) = some m0) :
    RunFilterResolve providers models f =
      (match
        (match ResolveProvider providers m0 with
         | some p => FindTemplateByIO p f.input f.output
         | none => none) with
       | some t => some t
       | none => FindTemplateAny providers f.input f.output).map
        fun t => (m0, t) := by
  unfold RunFilterResolve
  rw [hsel]

/-- C4: with a non-empty model list the run never fails on the model index
(an out-of-range index resolves exactly like index 0, and the in-range index
selects that model); the provider falls back to the first catalog provider
when the id matches nothing; the template is taken from the resolved provider
first and from the whole catalog second; and resolution fails exactly when no
template in the catalog matches the (input, output) pair. -/
theorem runfilter_resolution (providers : List ApiProvider)
    (models : List ModelConfig) (f : FilterDefinition) (hm : models ≠ []) :
    (RunFilterResolve providers models f = none ↔
      FindTemplateAny providers f.input f.output = none) ∧
    (∀ mt, RunFilterResolve providers models f = some mt →
      models.get? (if f.modelIndex < models.length then f.modelIndex else 0) =
        some mt.1) ∧
    (models.length ≤ f.modelIndex →
      RunFilterResolve providers models f =
        RunFilterResolve providers models
          ⟨f.title, f.input, f.output, 0, f.prompt⟩) ∧
    (∀ mc, FindProviderById providers mc.providerId = none →
      ResolveProvider providers mc = providers.head?) ∧
    (∀ mt p t, RunFilterResolve providers models f = some mt →
      ResolveProvider providers mt.1 = some p →
      FindTemplateByIO p f.input f.output = some t → mt.2 = t) ∧
    (∀ mt, RunFilterResolve providers models f = some mt →
      (∀ p, ResolveProvider providers mt.1 = some p →
        FindTemplateByIO p f.input f.output = none) →
      FindTemplateAny providers f.input f.output = some mt.2) := by
  have hlen : (if f.modelIndex < models.length then f.modelIndex else 0) <
      models.length := by
    split
    · assumption
    · exact List.length_pos.2 hm
  obtain ⟨m0, hsel⟩ : ∃ m0, models.get?
      (if f.modelIndex < models.length then f.modelIndex else 0) = some m0 :=
    List.get?_eq_get hlen ▸ ⟨_, rfl⟩
  have heq := runFilterResolve_eq providers models f m0 hsel
  refine ⟨?_, ?_, ?_, ?_, ?_, ?_⟩
  · rw [heq]
    constructor
    · intro hnone
      have hx := Option.map_eq_none'.1 hnone
      cases hP : ResolveProvider providers m0 with
      | some p =>
          simp only [hP] at hx
          cases hT : FindTemplateByIO p f.input f.output with
          | some t =>
              simp only [hT] at hx
              cases hx
          | none =>
              simp only [hT] at hx
              exact hx
      | none =>
          simp only [hP] at hx
          exact hx
    · intro hA
      apply Option.map_eq_none'.2
      cases hP : ResolveProvider providers m0 with
      | some p =>
          have hT := (findTemplateAny_none_iff providers f.input f.output).1
            hA p (resolveProvider_mem hP)
          simp [hP, hT, hA]
      | none => simp [hP, hA]
  · intro mt hmt
    rw [heq] at hmt
    obtain ⟨t, _, hmt2⟩ := Option.map_eq_some'.1 hmt
    rw [← hmt2]
    exact hsel
  · intro hge
    have h1 : ¬ f.modelIndex < models.length := Nat.not_lt.2 hge
    have h0 : (0 : Nat) < models.length := List.length_pos.2 hm
    unfold RunFilterResolve
    simp [h1, h0]
  · intro mc hnone
    unfold ResolveProvider
    rw [hnone]
  · intro mt p t hmt hP hT
    rw [heq] at hmt
    obtain ⟨t', hx, hmt2⟩ := Option.map_eq_some'.1 hmt
    have hm1 : mt.1 = m0 := by rw [← hmt2]
    rw [hm1] at hP
    simp only [hP, hT] at hx
    injection hx with hx2
    rw [← hmt2, ← hx2]
  · intro mt hmt hno
    rw [heq] at hmt
    obtain ⟨t', hx, hmt2⟩ := Option.map_eq_some'.1 hmt
    have hm1 : mt.1 = m0 := by rw [← hmt2]
    have hm2 : mt.2 = t' := by rw [← hmt2]
    cases hP : ResolveProvider providers m0 with
    | some p =>
        have hT := hno p (by rw [hm1]; exact hP)
        simp only [hP, hT] at hx
        rw [hm2, hx]
    | none =>
        simp only [hP] at hx
        rw [hm2, hx]

/-- Witness for `runfilter_resolution`: model index 7 on a 2-element model
list resolves to the model at index 0, and a matching catalog template makes
the run succeed. -/
theorem runfilter_resolution_witness :
    RunFilterResolve
        [⟨wstr "OpenAI", wstr "https://api.openai.com", [⟨wstr "text-text",
          wstr "OpenAI", .text, .text, [], [], [], []⟩], [], [], [], [], []⟩]
        [⟨wstr "A", [], [], [], wstr "OpenAI"⟩,
         ⟨wstr "B", [], [], [], wstr "OpenAI"⟩]
        ⟨wstr "F", .text, .text, 7, wstr "P"⟩ =
      RunFilterResolve
        [⟨wstr "OpenAI", wstr "https://api.openai.com", [⟨wstr "text-text",
          wstr "OpenAI", .text, .text, [], [], [], []⟩], [], [], [], [], []⟩]
        [⟨wstr "A", [], [], [], wstr "OpenAI"⟩,
         ⟨wstr "B", [], [], [], wstr "OpenAI"⟩]
        ⟨wstr "F", .text, .text, 0, wstr "P"⟩ ∧
    ∀ mt, RunFilterResolve
        [⟨wstr "OpenAI", wstr "https://api.openai.com", [⟨wstr "text-text",
          wstr "OpenAI", .text, .text, [], [], [], []⟩], [], [], [], [], []⟩]
        [⟨wstr "A", [], [], [], wstr "OpenAI"⟩,
         ⟨wstr "B", [], [], [], wstr "OpenAI"⟩]
        ⟨wstr "F", .text, .text, 7, wstr "P"⟩ = some mt →
      mt.1.name = wstr "A" := by
  constructor
  · exact (runfilter_resolution _ _ _ (by decide)).2.2.1 (by decide)
  · intro mt hmt
    have h := (runfilter_resolution
      [⟨wstr "OpenAI", wstr "https://api.openai.com", [⟨wstr "text-text",
        wstr "OpenAI", .text, .text, [], [], [], []⟩], [], [], [], [], []⟩]
      [⟨wstr "A", [], [], [], wstr "OpenAI"⟩,
       ⟨wstr "B", [], [], [], wstr "OpenAI"⟩]
      ⟨wstr "F", .text, .text, 7, wstr "P"⟩ (by decide)).2.1 mt hmt
    simp at h
    rw [← h]

lemma find?_append_first {α : Type} (p : α → Bool) (msA : List α) (m : α)
    (msB : List α) (hm : p m = true) (hA : ∀ x ∈ msA, p x = false) :
    (msA ++ m :: msB).find? p = some m := by
  induction msA with
  | nil => simp [List.find?_cons, hm]
  | cons a rest ih =>
      have ha := hA a (by simp)
      simp only [List.cons_append, List.find?_cons, ha]
      exact ih fun x hx => hA x (by simp [hx])

/-- C9: `PickModelByPatterns` tries the patterns in order; the first pattern
matching any model wins and returns the first matching model in list order;
with no match anywhere the first model (or the empty string on an empty
list) is returned; the worked example returns `gpt-4o-mini`. -/
theorem pick_model_by_patterns (models patterns : List (List Char)) :
    (∀ pre p post, patterns = pre ++ p :: post →
      (∀ q ∈ pre, ∀ m ∈ models, RegexMatchNoCase m q = false) →
      ∀ msA m msB, models = msA ++ m :: msB →
        RegexMatchNoCase m p = true →
        (∀ m' ∈ msA, RegexMatchNoCase m' p = false) →
        PickModelByPatterns models patterns = m) ∧
    ((∀ q ∈ patterns, ∀ m ∈ models, RegexMatchNoCase m q = false) →
      PickModelByPatterns models patterns = models.headD []) ∧
    PickModelByPatterns [wstr "gpt-4o", wstr "gpt-4o-mini"]
        [wstr "gpt-.*-mini", wstr "gpt-.*"] = wstr "gpt-4o-mini" := by
  refine ⟨?_, ?_, by decide⟩
  · intro pre p post hpat hpre msA m msB hmod hm hA
    subst hpat
    subst hmod
    induction pre with
    | nil =>
        rw [List.nil_append]
        unfold PickModelByPatterns
        rw [find?_append_first _ msA m msB hm hA]
    | cons q pre' ih =>
        have hqnone : (msA ++ m :: msB).find?
            (fun m' => RegexMatchNoCase m' q) = none := by
          apply List.find?_eq_none.2
          intro x hx
          simp [hpre q (by simp) x hx]
        rw [List.cons_append]
        unfold PickModelByPatterns
        rw [hqnone]
        exact ih fun q' hq' x hx => hpre q' (by simp [hq']) x hx
  · intro hall
    induction patterns with
    | nil => cases models <;> rfl
    | cons q rest ih =>
        have hqnone : models.find? (fun m' => RegexMatchNoCase m' q) = none := by
          apply List.find?_eq_none.2
          intro x hx
          simp [hall q (by simp) x hx]
        unfold PickModelByPatterns
        rw [hqnone]
        exact ih fun q' hq' x hx => hall q' (by simp [hq']) x hx

/-- Witness for `pick_model_by_patterns`: the first pattern already matches
the second model, so it wins over the first model which fails it. -/
theorem pick_model_by_patterns_witness :
    PickModelByPatterns [wstr "gpt-4o", wstr "gpt-4o-mini"]
        [wstr "gpt-.*-mini", wstr "gpt-.*"] = wstr "gpt-4o-mini" :=
  (pick_model_by_patterns [wstr "gpt-4o", wstr "gpt-4o-mini"]
      [wstr "gpt-.*-mini", wstr "gpt-.*"]).1
    [] (wstr "gpt-.*-mini") [wstr "gpt-.*"] rfl (by simp)
    [wstr "gpt-4o"] (wstr "gpt-4o-mini") [] rfl (by decide) (by decide)

lemma isPrefixOf_cons_cons (a b : Char) (as bs : List Char) :
    (a :: as).isPrefixOf (b :: bs) = (a == b && as.isPrefixOf bs) := rfl

lemma httpPrefix_slash (f : List Char) :
    httpPrefix.isPrefixOf ('/' :: f) = false := by
  rw [show httpPrefix = 'h' :: wstr "ttp://" from rfl, isPrefixOf_cons_cons]
  simp [show (('h' : Char) == '/') = false from by decide]

lemma httpsPrefix_slash (f : List Char) :
    httpsPrefix.isPrefixOf ('/' :: f) = false := by
  rw [show httpsPrefix = 'h' :: wstr "ttps://" from rfl, isPrefixOf_cons_cons]
  simp [show (('h' : Char) == '/') = false from by decide]

lemma findSlash_none (l : List Char) (h : '/' ∉ l) : findSlash l = none := by
  induction l with
  | nil => rfl
  | cons c rest ih =>
      have hc : ¬ c = '/' := fun e => h (e ▸ List.mem_cons_self c rest)
      unfold findSlash
      rw [if_neg hc, ih fun m => h (List.mem_cons_of_mem _ m)]
      rfl

lemma splitHostPath_no_slash (host path : List Char) (h : '/' ∉ host) :
    splitHostPath host path = (host, path) := by
  unfold splitHostPath
  rw [findSlash_none host h]

/-- C2 counterexample: with the server base `example.com/api`, the fragments
`v1/x` and `/v1/x` resolve to the same host but different paths
(`/apiv1/x` versus `/api/v1/x`), so resolution is not invariant to the
leading slash for every fixed server base. -/
theorem resolve_slash_counterexample :
    (PrepareEndpoint (wstr "example.com/api") (wstr "v1/x") true).host =
      (PrepareEndpoint (wstr "example.com/api") (wstr "/v1/x") true).host ∧
    (PrepareEndpoint (wstr "example.com/api") (wstr "v1/x") true).path =
      wstr "/apiv1/x" ∧
    (PrepareEndpoint (wstr "example.com/api") (wstr "/v1/x") true).path =
      wstr "/api/v1/x" ∧
    (PrepareEndpoint (wstr "example.com/api") (wstr "v1/x") true).path ≠
      (PrepareEndpoint (wstr "example.com/api") (wstr "/v1/x") true).path := by
  refine ⟨by decide, by decide, by decide, by decide⟩

/-- C2 amended: leading-slash invariance of `PrepareEndpoint` holds whenever
the server base carries no path segment after scheme stripping (and the
non-empty fragment is not an absolute URL). -/
theorem resolve_slash_invariant (base f : List Char) (h0 : Bool)
    (hne : f ≠ []) (hhd : f.head? ≠ some '/')
    (h1 : httpPrefix.isPrefixOf f = false)
    (h2 : httpsPrefix.isPrefixOf f = false)
    (hbase : '/' ∉ (stripScheme base h0).1) :
    PrepareEndpoint base f h0 = PrepareEndpoint base ('/' :: f) h0 := by
  unfold PrepareEndpoint
  simp only [hne, List.cons_ne_nil, h1, h2, httpPrefix_slash,
    httpsPrefix_slash, Bool.or_self, Bool.false_eq_true, if_false]
  rw [splitHostPath_no_slash _ _ hbase, splitHostPath_no_slash _ _ hbase]
  have hnorm : normalizeLeadingSlash f = '/' :: f := by
    unfold normalizeLeadingSlash
    rw [if_pos ⟨hne, hhd⟩]
  have hnorm2 : normalizeLeadingSlash ('/' :: f) = '/' :: f := by
    unfold normalizeLeadingSlash
    simp
  rw [hnorm, hnorm2]

/-- Witness for `resolve_slash_invariant`: with base `example.com` the
fragments `v1/x` and `/v1/x` resolve identically. -/
theorem resolve_slash_invariant_witness :
    PrepareEndpoint (wstr "example.com") (wstr "v1/x") true =
      PrepareEndpoint (wstr "example.com") ('/' :: wstr "v1/x") true :=
  resolve_slash_invariant (wstr "example.com") (wstr "v1/x") true
    (by decide) (by decide) (by decide) (by decide) (by decide)

lemma https_of_http (f : List Char) (h : httpPrefix.isPrefixOf f = true) :
    httpsPrefix.isPrefixOf f = false := by
  obtain ⟨t, ht⟩ := (List.isPrefixOf_iff_prefix.1 h)
  rw [← ht]
  rfl

lemma http_of_https (f : List Char) (h : httpsPrefix.isPrefixOf f = true) :
    httpPrefix.isPrefixOf f = false := by
  obtain ⟨t, ht⟩ := (List.isPrefixOf_iff_prefix.1 h)
  rw [← ht]
  rfl

lemma splitHostPath_eq (host path : List Char) :
    splitHostPath host path =
      (host.takeWhile (fun c => !(c == '/')),
       host.dropWhile (fun c => !(c == '/')) ++ path) := by
  induction host with
  | nil => simp [splitHostPath, findSlash]
  | cons c rest ih =>
      by_cases hc : c = '/'
      · subst hc
        simp [splitHostPath, findSlash]
      · have hcb : (c == '/') = false := by simp [hc]
        unfold splitHostPath findSlash
        rw [if_neg hc]
        unfold splitHostPath at ih
        cases hf : findSlash rest with
        | none =>
            rw [hf] at ih
            have htw : rest.takeWhile (fun c => !(c == '/')) = rest :=
              congrArg Prod.fst ih.symm
            have hdw : rest.dropWhile (fun c => !(c == '/')) ++ path = path :=
              congrArg Prod.snd ih.symm
            simp only [Option.map_none']
            rw [List.takeWhile_cons, List.dropWhile_cons, hcb]
            simp only [Bool.not_false, if_true]
            rw [htw, hdw]
        | some i =>
            rw [hf] at ih
            have htw : rest.take i = rest.takeWhile (fun c => !(c == '/')) :=
              congrArg Prod.fst ih
            have hdw : rest.drop i ++ path =
                rest.dropWhile (fun c => !(c == '/')) ++ path :=
              congrArg Prod.snd ih
            simp only [Option.map_some']
            rw [List.takeWhile_cons, List.dropWhile_cons, hcb]
            simp only [Bool.not_false, if_true]
            rw [List.take_succ_cons, List.drop_succ_cons, htw, hdw]

lemma takeWhile_no_slash (l : List Char) :
    '/' ∉ l.takeWhile (fun c => !(c == '/')) := by
  induction l with
  | nil => simp
  | cons c rest ih =>
      rw [List.takeWhile_cons]
      by_cases hc : c = '/'
      · simp [hc]
      · have hcb : (c == '/') = false := by simp [hc]
        rw [hcb]
        simp only [Bool.not_false, if_true]
        intro hmem
        rcases List.mem_cons.1 hmem with he | hm
        · exact hc he.symm
        · exact ih hm

lemma normalize_head (q : List Char) (h : normalizeLeadingSlash q ≠ []) :
    (normalizeLeadingSlash q).head? = some '/' := by
  unfold normalizeLeadingSlash at *
  by_cases hcond : q ≠ [] ∧ q.head? ≠ some '/'
  · rw [if_pos hcond] at *
    rfl
  · rw [if_neg hcond] at *
    rcases not_and_or.1 hcond with hq | hh
    · exact absurd (not_not.1 hq) h
    · exact not_not.1 hh

/-- C6: `PrepareEndpoint` fails exactly when the resolved host is empty; an
empty fragment behaves as `/v1/chat/completions`; an absolute fragment makes
the result independent of the server base; the scheme on whichever string
carries it sets the secure flag; the host never retains a path segment — any
remainder after the first slash is prepended to the path; and every non-empty
resulting path begins with a slash. -/
theorem prepare_endpoint_contract (base frag : List Char) (h0 : Bool) :
    ((PrepareEndpoint base frag h0).ok = false ↔
        (PrepareEndpoint base frag h0).host = []) ∧
    (PrepareEndpoint base [] h0 =
        PrepareEndpoint base (wstr "/v1/chat/completions") h0) ∧
    (∀ base2, (httpPrefix.isPrefixOf frag || httpsPrefix.isPrefixOf frag) =
        true →
      PrepareEndpoint base frag h0 = PrepareEndpoint base2 frag h0) ∧
    (httpsPrefix.isPrefixOf frag = true →
      (PrepareEndpoint base frag h0).useHttps = true) ∧
    (httpPrefix.isPrefixOf frag = true →
      (PrepareEndpoint base frag h0).useHttps = false) ∧
    (httpPrefix.isPrefixOf frag = false → httpsPrefix.isPrefixOf frag = false →
      httpsPrefix.isPrefixOf base = true →
      (PrepareEndpoint base frag h0).useHttps = true) ∧
    (httpPrefix.isPrefixOf frag = false → httpsPrefix.isPrefixOf frag = false →
      httpPrefix.isPrefixOf base = true →
      (PrepareEndpoint base frag h0).useHttps = false) ∧
    ('/' ∉ (PrepareEndpoint base frag h0).host) ∧
    (frag ≠ [] → httpPrefix.isPrefixOf frag = false →
      httpsPrefix.isPrefixOf frag = false →
      (PrepareEndpoint base frag h0).host =
        ((stripScheme base h0).1).takeWhile (fun c => !(c == '/')) ∧
      (PrepareEndpoint base frag h0).path =
        normalizeLeadingSlash
          (((stripScheme base h0).1).dropWhile (fun c => !(c == '/')) ++
            frag)) ∧
    ((httpPrefix.isPrefixOf frag || httpsPrefix.isPrefixOf frag) = true →
      (PrepareEndpoint base frag h0).host =
        ((stripScheme frag h0).1).takeWhile (fun c => !(c == '/')) ∧
      (PrepareEndpoint base frag h0).path =
        normalizeLeadingSlash
          (((stripScheme frag h0).1).dropWhile (fun c => !(c == '/')))) ∧
    ((PrepareEndpoint base frag h0).path ≠ [] →
      (PrepareEndpoint base frag h0).path.head? = some '/') := by
  have habs_nil_http : httpPrefix.isPrefixOf ([] : List Char) = false := rfl
  have habs_nil_https : httpsPrefix.isPrefixOf ([] : List Char) = false := rfl
  have hdef_http :
      httpPrefix.isPrefixOf (wstr "/v1/chat/completions") = false := by decide
  have hdef_https :
      httpsPrefix.isPrefixOf (wstr "/v1/chat/completions") = false := by decide
  refine ⟨?_, ?_, ?_, ?_, ?_, ?_, ?_, ?_, ?_, ?_, ?_⟩
  · unfold PrepareEndpoint
    simp
  · unfold PrepareEndpoint
    simp
  · intro base2 habs
    have hne : frag ≠ [] := by
      intro h
      subst h
      rw [habs_nil_http, habs_nil_https] at habs
      simp at habs
    unfold PrepareEndpoint
    simp [hne, habs]
  · intro h
    have hne : frag ≠ [] := by
      intro he
      subst he
      rw [habs_nil_https] at h
      cases h
    unfold PrepareEndpoint
    simp [hne, h, stripScheme]
  · intro h
    have hne : frag ≠ [] := by
      intro he
      subst he
      rw [habs_nil_http] at h
      cases h
    unfold PrepareEndpoint
    simp [hne, h, https_of_http frag h, stripScheme]
  · intro h1 h2 hb
    unfold PrepareEndpoint
    by_cases hfe : frag = []
    · subst hfe
      simp [hdef_http, hdef_https, stripScheme, hb]
    · simp [hfe, h1, h2, stripScheme, hb]
  · intro h1 h2 hb
    unfold PrepareEndpoint
    by_cases hfe : frag = []
    · subst hfe
      simp [hdef_http, hdef_https, stripScheme, hb, https_of_http base hb]
    · simp [hfe, h1, h2, stripScheme, hb, https_of_http base hb]
  · unfold PrepareEndpoint
    simp only [splitHostPath_eq]
    exact takeWhile_no_slash _
  · intro hne h1 h2
    unfold PrepareEndpoint
    simp only [hne, h1, h2, Bool.or_self, Bool.false_eq_true, if_false,
      ite_false, splitHostPath_eq]
    exact ⟨trivial, trivial⟩
  · intro habs
    have hne : frag ≠ [] := by
      intro h
      subst h
      rw [habs_nil_http, habs_nil_https] at habs
      simp at habs
    unfold PrepareEndpoint
    simp only [hne, Bool.false_eq_true, if_false, ite_false, habs, if_true,
      ite_true, splitHostPath_eq]
    exact ⟨trivial, by simp⟩
  · unfold PrepareEndpoint
    intro hne
    exact normalize_head _ hne

/-- Witness for `prepare_endpoint_contract`: an absolute `https` fragment
overrides the server base entirely, and an absolute `http` fragment turns the
secure flag off. -/
theorem prepare_endpoint_contract_witness :
    PrepareEndpoint (wstr "ignored") (wstr "https://alt.example.com/gen")
        true =
      PrepareEndpoint (wstr "other") (wstr "https://alt.example.com/gen")
        true ∧
    (PrepareEndpoint (wstr "server") (wstr "http://alt.example.com/gen")
        true).useHttps = false :=
  ⟨(prepare_endpoint_contract (wstr "ignored")
      (wstr "https://alt.example.com/gen") true).2.2.1 (wstr "other")
      (by decide),
   (prepare_endpoint_contract (wstr "server")
      (wstr "http://alt.example.com/gen") true).2.2.2.2.1 (by decide)⟩

/-- C3 counterexample: an out-of-bounds bracketed index reached through an
object key does not yield the empty "not found" result — `a[1]` on
`{"a":["x"]}` returns the stringified array; likewise a trailing empty
segment applied to a string value is skipped rather than terminating with no
result. -/
theorem extract_by_path_counterexample :
    ExtractByPath (wstr "\x7b\"a\":[\"x\"]\x7d") (wstr "a[1]") =
        wstr "[\"x\"]" ∧
    wstr "[\"x\"]" ≠ ([] : List Char) ∧
    ExtractByPath (wstr "\x7b\"a\":\"x\"\x7d") (wstr "a.") = wstr "x" ∧
    wstr "x" ≠ ([] : List Char) := by
  refine ⟨by decide, by decide, by decide, by decide⟩

/-- C3 amended: the path is split at dots with optional bracketed integer
indices; an empty segment at an object or array value, a missing object key,
and an out-of-bounds index at a segment walking an array value directly all
end the walk with the empty result (and a failed walk makes `ExtractByPath`
return the empty string); but an out-of-bounds bracketed index applied after
a successful object-key lookup leaves the array value in place, and segments
applied to scalar values are skipped; the round-trip example yields
`hello`. -/
theorem extract_by_path_amended :
    (ExtractByPath
        (wstr "\x7b\"choices\":[\x7b\"message\":\x7b\"content\":\"hello\"\x7d\x7d]\x7d")
        (wstr "choices[0].message.content") = wstr "hello") ∧
    (∀ kvs, stepPart (Json.obj kvs) [] = none) ∧
    (∀ xs, stepPart (Json.arr xs) [] = none) ∧
    (∀ kvs p, (parsePart p).1 ≠ [] →
      lookupKey kvs (parsePart p).1 = none →
      stepPart (Json.obj kvs) p = none) ∧
    (∀ xs p, ¬(0 ≤ (parsePart p).2 ∧ (parsePart p).2 < (xs.length : Int)) →
      stepPart (Json.arr xs) p = none) ∧
    (∀ kvs p xs, (parsePart p).1 ≠ [] →
      lookupKey kvs (parsePart p).1 = some (Json.arr xs) →
      (xs.length : Int) ≤ (parsePart p).2 →
      stepPart (Json.obj kvs) p = some (Json.arr xs)) ∧
    (∀ s p rest, (parsePart p).2 < 0 →
      walkParts (Json.str s) (p :: rest) = walkParts (Json.str s) rest) ∧
    (∀ json path root, jsonParse json = some root →
      walkParts root (splitDot path) = none →
      ExtractByPath json path = []) := by
  refine ⟨by decide, ?_, ?_, ?_, ?_, ?_, ?_, ?_⟩
  · intro kvs
    rfl
  · intro xs
    rfl
  · intro kvs p h1 h2
    simp [stepPart, h1, h2]
  · intro xs p h
    simp [stepPart, h]
  · intro kvs p xs h1 h2 h3
    have hnn : (0 : Int) ≤ (xs.length : Int) := Int.ofNat_nonneg _
    have h0 : ¬ (parsePart p).2 < 0 := by omega
    have hlt : ¬ (parsePart p).2 < (xs.length : Int) := by omega
    simp [stepPart, h1, h2, applyIdx, h0, hlt]
  · intro s p rest hidx
    have h0 : (parsePart p).2 < 0 := hidx
    simp [walkParts, stepPart, applyIdx, h0]
  · intro json path root hparse hwalk
    unfold ExtractByPath
    simp only [hparse, hwalk]

/-- Witness for `extract_by_path_amended`: a missing object key ends the walk
with the empty result. -/
theorem extract_by_path_amended_witness :
    stepPart (Json.obj [(wstr "k", Json.str (wstr "v"))]) (wstr "missing") =
      none :=
  extract_by_path_amended.2.2.2.1 [(wstr "k", Json.str (wstr "v"))]
    (wstr "missing") (by decide) rfl

/-- C1 counterexample: a header block containing `MULTIPART/FORM-DATA` in
upper case triggers multipart body construction (case-insensitive detection)
but the header is NOT rewritten — the exact-case `ReplaceAll` finds no
occurrence, so no `boundary=` parameter is ever appended, contradicting the
claim that every case-insensitive match gets its header value rewritten. -/
theorem multipart_rewrite_counterexample :
    ContainsNoCase (wstr "Content-Type: MULTIPART/FORM-DATA\r\n")
        (wstr "multipart/form-data") = true ∧
    (EncodeRequest (wstr "Content-Type: MULTIPART/FORM-DATA\r\n")
        (wstr "\x7b\x7d") (wstr "m") (wstr "p") []).2 =
      BuildMultipartBody cbBoundary (wstr "m") (wstr "p") [] ∧
    (EncodeRequest (wstr "Content-Type: MULTIPART/FORM-DATA\r\n")
        (wstr "\x7b\x7d") (wstr "m") (wstr "p") []).1 =
      wstr "Content-Type: MULTIPART/FORM-DATA\r\n" ∧
    findSub (EncodeRequest (wstr "Content-Type: MULTIPART/FORM-DATA\r\n")
        (wstr "\x7b\x7d") (wstr "m") (wstr "p") []).1
      (wstr "boundary=") = none := by
  refine ⟨by decide, by decide, by decide, by decide⟩

/-- C1 amended: a case-insensitive `multipart/form-data` occurrence in the
rendered header block selects multipart encoding with the FIXED boundary
token `----cbfilterboundary` (not a random one), rewriting only exact-case
occurrences of the substring to carry `; boundary=`; the body opens with a
`model` part introduced by `--<boundary>`, carries a `prompt` part, carries a
binary image/png `image` part exactly when the base64 image data decodes to
at least one byte, and is terminated by `--<boundary>--`; without the header
match the rendered payload is used verbatim as the UTF-8 body. -/
theorem multipart_encoding_amended
    (headers payload model prompt imgB64 : List Char) :
    (ContainsNoCase headers (wstr "multipart/form-data") = false →
      EncodeRequest headers payload model prompt imgB64 =
        (headers, utf8 payload)) ∧
    (ContainsNoCase headers (wstr "multipart/form-data") = true →
      (EncodeRequest headers payload model prompt imgB64).1 =
        ReplaceAll headers (wstr "multipart/form-data")
          (wstr "multipart/form-data; boundary=" ++ cbBoundary) ∧
      (EncodeRequest headers payload model prompt imgB64).2 =
        BuildMultipartBody cbBoundary model prompt imgB64) ∧
    (∃ rest, BuildMultipartBody cbBoundary model prompt imgB64 =
      utf8 (wstr "--") ++ utf8 cbBoundary ++ utf8 (wstr "\r\n") ++
      utf8 (wstr "Content-Disposition: form-data; name=\"") ++
      utf8 (wstr "model") ++ utf8 (wstr "\"\r\n\r\n") ++ utf8 model ++
      utf8 (wstr "\r\n") ++ rest) ∧
    (∃ pre, BuildMultipartBody cbBoundary model prompt imgB64 =
      pre ++ (utf8 (wstr "--") ++ utf8 cbBoundary ++
        utf8 (wstr "--\r\n"))) ∧
    ((imgB64 = [] ∨ base64Decode imgB64 = none ∨
        base64Decode imgB64 = some []) →
      BuildMultipartBody cbBoundary model prompt imgB64 =
        multipartTextPart (utf8 cbBoundary) (wstr "model") model ++
        multipartTextPart (utf8 cbBoundary) (wstr "prompt") prompt ++
        (utf8 (wstr "--") ++ utf8 cbBoundary ++ utf8 (wstr "--\r\n"))) ∧
    (∀ bs, base64Decode imgB64 = some bs → bs ≠ [] → imgB64 ≠ [] →
      ∃ pre post, BuildMultipartBody cbBoundary model prompt imgB64 =
        pre ++ utf8 (wstr "Content-Type: image/png\r\n\r\n") ++ bs ++
        utf8 (wstr "\r\n") ++ post) := by
  refine ⟨?_, ?_, ?_, ?_, ?_, ?_⟩
  · intro h
    unfold EncodeRequest
    simp [h]
  · intro h
    constructor
    · unfold EncodeRequest
      simp [h]
    · unfold EncodeRequest
      simp [h]
  · refine ⟨multipartTextPart (utf8 cbBoundary) (wstr "prompt") prompt ++
      multipartImageSection (utf8 cbBoundary) imgB64 ++
      utf8 (wstr "--") ++ utf8 cbBoundary ++ utf8 (wstr "--\r\n"), ?_⟩
    unfold BuildMultipartBody multipartTextPart
    simp [List.append_assoc]
  · refine ⟨multipartTextPart (utf8 cbBoundary) (wstr "model") model ++
      multipartTextPart (utf8 cbBoundary) (wstr "prompt") prompt ++
      multipartImageSection (utf8 cbBoundary) imgB64, ?_⟩
    unfold BuildMultipartBody
    simp [List.append_assoc]
  · intro h
    have hsec : multipartImageSection (utf8 cbBoundary) imgB64 = [] := by
      unfold multipartImageSection
      rcases h with h | h | h <;> simp [h]
    unfold BuildMultipartBody
    simp only [hsec]
    simp [List.append_assoc]
  · intro bs hdec hne hb64
    have hsec : multipartImageSection (utf8 cbBoundary) imgB64 =
        utf8 (wstr "--") ++ utf8 cbBoundary ++ utf8 (wstr "\r\n") ++
        utf8 (wstr "Content-Disposition: form-data; name=\"image\"; filename=\"image.png\"\r\n") ++
        utf8 (wstr "Content-Type: image/png\r\n\r\n") ++ bs ++
        utf8 (wstr "\r\n") := by
      unfold multipartImageSection
      simp [hb64, hdec, hne]
    refine ⟨multipartTextPart (utf8 cbBoundary) (wstr "model") model ++
      multipartTextPart (utf8 cbBoundary) (wstr "prompt") prompt ++
      (utf8 (wstr "--") ++ utf8 cbBoundary ++ utf8 (wstr "\r\n") ++
       utf8 (wstr "Content-Disposition: form-data; name=\"image\"; filename=\"image.png\"\r\n")),
      utf8 (wstr "--") ++ utf8 cbBoundary ++ utf8 (wstr "--\r\n"), ?_⟩
    unfold BuildMultipartBody
    simp only [hsec]
    simp [List.append_assoc]

/-- Witness for `multipart_encoding_amended`: a lower-case multipart header
is rewritten to carry the fixed boundary, and base64 image data `QUJD`
(bytes `ABC`) produces an image/png part carrying those bytes. -/
theorem multipart_encoding_amended_witness :
    (EncodeRequest (wstr "Content-Type: multipart/form-data\r\n")
        (wstr "\x7b\x7d") (wstr "m") (wstr "p") (wstr "QUJD")).1 =
      ReplaceAll (wstr "Content-Type: multipart/form-data\r\n")
        (wstr "multipart/form-data")
        (wstr "multipart/form-data; boundary=" ++ cbBoundary) ∧
    (∃ pre post, BuildMultipartBody cbBoundary (wstr "m") (wstr "p")
        (wstr "QUJD") =
      pre ++ utf8 (wstr "Content-Type: image/png\r\n\r\n") ++
        [65, 66, 67] ++ utf8 (wstr "\r\n") ++ post) :=
  ⟨((multipart_encoding_amended (wstr "Content-Type: multipart/form-data\r\n")
      (wstr "\x7b\x7d") (wstr "m") (wstr "p") (wstr "QUJD")).2.1
      (by decide)).1,
   (multipart_encoding_amended (wstr "Content-Type: multipart/form-data\r\n")
      (wstr "\x7b\x7d") (wstr "m") (wstr "p") (wstr "QUJD")).2.2.2.2.2
     [65, 66, 67] (by decide) (by decide) (by decide)⟩

end CbFilter
